import Mathlib

/-!
Verification of the ai_pair repair-cycle orchestrator
(src/ai_pair/src/AIPairRunner.js and src/ai_pair/src/AIPair.js).

The JavaScript orchestrator is shallowly embedded below.  String-processing
is translated to executable functions over `List Char` (JS strings are
treated as character sequences; case conversion is modelled for ASCII,
which covers the Java test identifiers the program processes).  External
collaborators (test runner, file system, AI backends, code application) are
modelled as oracle fields of an `Env` record, matching the interface
boundary of the program; the observable actions the runner performs against
them are recorded in an event trace.
-/

/-- Prepends a character onto the first group of a group list. -/
def consHead (c : Char) : List (List Char) → List (List Char)
  | [] => [[c]]
  | g :: gs => (c :: g) :: gs

/-- Splits a character list at every occurrence of `sep`, keeping empty
segments, exactly like JS `String.prototype.split` with a single-character
separator (so the result is always non-empty). -/
def splitOnChar (sep : Char) : List Char → List (List Char)
  | [] => [[]]
  | c :: rest =>
      if c = sep then [] :: splitOnChar sep rest
      else consHead c (splitOnChar sep rest)

/-- Joins groups with a single separator character, like JS
`Array.prototype.join` with a one-character separator. -/
def intercalateChar (sep : Char) : List (List Char) → List Char
  | [] => []
  | [g] => g
  | g :: gs => g ++ sep :: intercalateChar sep gs

/-- Characters before the first closing parenthesis (the text matched by
`[^)]+` in the regex `/\(([^)]+)\)/` once an opening parenthesis was found). -/
def takeUntilClose : List Char → List Char
  | [] => []
  | c :: rest => if c = ')' then [] else c :: takeUntilClose rest

/-- First capture group of the JS regex match `test.match(/\(([^)]+)\)/)`
(AIPairRunner.js line 126): the leftmost position holding an opening
parenthesis followed by at least one non-`)` character and then a closing
parenthesis yields the characters in between; `none` models a null match. -/
def firstParenGroup : List Char → Option (List Char)
  | [] => none
  | c :: rest =>
      if c = '(' ∧ ')' ∈ rest then
        if takeUntilClose rest = [] then firstParenGroup rest
        else some (takeUntilClose rest)
      else firstParenGroup rest

/-- ASCII model of JS `String.prototype.toLowerCase` on one character: an
uppercase ASCII letter (codes 65–90) is shifted by 32, anything else is
returned unchanged. -/
def jsCharToLower (c : Char) : Char :=
  if 65 ≤ c.toNat ∧ c.toNat ≤ 90 then Char.ofNat (c.toNat + 32) else c

/-- Lines 133–139 of AIPairRunner.js: split the candidate class name at
dots; if the last segment is non-empty and its first character is unchanged
by `toLowerCase` (the JS test `lastPart[0] === lastPart[0].toLowerCase()`),
it is treated as a method name and removed, re-joining the rest with dots. -/
def stripMethod (className : List Char) : List Char :=
  match (splitOnChar '.' className).getLast? with
  | some (ch :: _) =>
      if jsCharToLower ch = ch then
        intercalateChar '.' (splitOnChar '.' className).dropLast
      else className
  | _ => className

/-- Lines 120–139 of AIPairRunner.js: derive the owning class name of one
failing-test identifier.  If the string contains `(`, the first regex
parenthesis group is used when the regex matches (otherwise the whole
string); then a trailing lowercase-initial method segment is stripped. -/
def extractClassNameL (test : List Char) : List Char :=
  let className :=
    if '(' ∈ test then
      match firstParenGroup test with
      | some g => g
      | none => test
    else test
  stripMethod className

/-- String-level wrapper of `extractClassNameL`. -/
def extractClassName (test : String) : String :=
  String.mk (extractClassNameL test.data)

/-- JS `className.replace(/\./g, '/')` (line 141): every dot becomes a
slash. -/
def slashPath (className : String) : String :=
  String.mk (className.data.map (fun ch => if ch = '.' then '/' else ch))

/-- Model of node `path.join` for the relative, already-normalised segments
used by the runner: the two parts are glued with a single separator. -/
def pathJoin (a b : String) : String :=
  a ++ "/" ++ b

/-- A source file reference: absolute path plus file content
(the `{path, content}` objects built on lines 144–147). -/
structure SrcFile where
  path : String
  content : String
deriving DecidableEq

/-- The `AIPairRunner` instance state set up by the constructor
(AIPairRunner.js lines 17–42) plus the `buildGradleContent` field assigned
in `run()`.  The per-family API keys model the `apiKeys` object; a missing
environment variable is `none`. -/
structure Runner where
  model : String
  projectRoot : String
  testDir : String
  extension : String
  anthropicKey : Option String
  openaiKey : Option String
  geminiKey : Option String
  promptTemplate : String
  systemPrompt : String
  buildGradleContent : String
  accumulatedHints : List String
deriving DecidableEq

/-- Line 141 of AIPairRunner.js: the test source path
`path.join(projectRoot, 'src/test/java', className.replace(/\./g, '/') + '.java')`. -/
def testFilePath (r : Runner) (className : String) : String :=
  pathJoin (pathJoin r.projectRoot "src/test/java") (slashPath className ++ ".java")

/-- Lines 120–148 of AIPairRunner.js, body of the `failedTests.map`
callback: derive the class, build the test-file path, and read the file
when it exists (`fs.existsSync ? readFileSync : ''`); the file system is
the oracle `fsys` mapping a path to its content when present. -/
def extractTestFile (r : Runner) (fsys : String → Option String) (test : String) : SrcFile :=
  let className := extractClassName test
  let p := testFilePath r className
  { path := p, content := (fsys p).getD "" }

/-- The whole `failedTests.map(test => ...)` expression (line 120). -/
def extractTestFiles (r : Runner) (fsys : String → Option String)
    (tests : List String) : List SrcFile :=
  tests.map (extractTestFile r fsys)

/-- JS `Array.prototype.join(sep)` on a list of strings. -/
def joinSep (sep : String) : List String → String
  | [] => ""
  | [x] => x
  | x :: xs => x ++ sep ++ joinSep sep xs

/-- Replaces the first occurrence of `pat` in a character list by `repl`,
like JS `String.prototype.replace` with a plain string pattern (the
template placeholders substituted on lines 162–165 occur once each). -/
def replaceFirstL (pat repl : List Char) : List Char → List Char
  | [] => if pat = [] then repl else []
  | c :: rest =>
      if pat.isPrefixOf (c :: rest) then repl ++ (c :: rest).drop pat.length
      else c :: replaceFirstL pat repl rest

/-- String-level wrapper of `replaceFirstL`. -/
def jsReplaceFirst (s pat repl : String) : String :=
  String.mk (replaceFirstL pat.data repl.data s.data)

/-- Model of node `path.relative(projectRoot, p)` for the paths the runner
builds: when `p` lives under `projectRoot` the leading root and separator
are removed, otherwise `p` is returned as is. -/
def pathRelative (root p : String) : String :=
  if (root ++ "/").data.isPrefixOf p.data then String.mk (p.data.drop (root.length + 1))
  else p

/-- One entry of the `filesContent` concatenation (lines 157–160):
`File: <relativePath>` header, blank line, file content. -/
def fileSection (projectRoot : String) (f : SrcFile) : String :=
  "File: " ++ pathRelative projectRoot f.path ++ "\n\n" ++ f.content

/-- Lines 162–169 of AIPairRunner.js: substitute the three template
placeholders, then, when hints have accumulated, append the single
trailing hint line `Hints for improvement: <hints joined by ; >`. -/
def renderPrompt (r : Runner) (testOutput filesContent : String) : String :=
  let p1 := jsReplaceFirst r.promptTemplate "{testOutput}" testOutput
  let p2 := jsReplaceFirst p1 "{filesContent}" filesContent
  let p3 := jsReplaceFirst p2 "{buildGradleContent}" r.buildGradleContent
  if r.accumulatedHints = [] then p3
  else p3 ++ "\n\nHints for improvement: " ++ joinSep "; " r.accumulatedHints

/-- Observable actions `performCodeGenerationCycle` takes against its
external collaborators: a test run (`runTests`), the source-file
collection (`collectFilesWithExtension`), one AI generation call carrying
the rendered prompt (`client.generateCode`), and the application of the
generated code (`parseAndApplyGeneratedCode`). -/
inductive Event
  | testRun
  | collectFiles
  | generate (prompt : String)
  | applyCode (code : String)
deriving DecidableEq

/-- Oracle answers of the external collaborators for one cycle: the
pre-check test result, the content of `tmp/test_output.txt` after it, the
failing-test identifiers from `summarizeAllTests`, the collected main
source files, the project file system, the AI-generated text, and the
result of the re-test after application. -/
structure Env where
  testsPass1 : Bool
  testOutputFile : String
  failedTests : List String
  codeFiles : List SrcFile
  fsys : String → Option String
  generated : String
  testsPass2 : Bool

/-- Lines 89–193 of AIPairRunner.js, `performCodeGenerationCycle(force)`.
Returns the JS return value (`none` models the bare `return;` on line 101,
`some b` the final `return testsPassed;`) together with the trace of
collaborator actions in program order. -/
def performCodeGenerationCycle (r : Runner) (env : Env) (force : Bool) :
    Option Bool × List Event :=
  let proceed := fun (testOutput : String) (failedTests : List String)
      (preEvents : List Event) =>
    let testFiles := extractTestFiles r env.fsys failedTests
    let filesContent :=
      joinSep "\n\n" ((env.codeFiles ++ testFiles).map (fileSection r.projectRoot))
    let prompt := renderPrompt r testOutput filesContent
    (some env.testsPass2,
      preEvents ++ [Event.collectFiles, Event.generate prompt,
                    Event.applyCode env.generated, Event.testRun])
  if force then proceed "No test output yet." [] []
  else if env.testsPass1 then (none, [Event.testRun])
  else proceed env.testOutputFile env.failedTests [Event.testRun]

/-- Prompts carried by the generation calls of a trace. -/
def generatedPrompts (es : List Event) : List String :=
  es.filterMap (fun e =>
    match e with
    | Event.generate p => some p
    | _ => none)

/-- Generated-code payloads handed to the application step in a trace. -/
def appliedCodes (es : List Event) : List String :=
  es.filterMap (fun e =>
    match e with
    | Event.applyCode c => some c
    | _ => none)

/-- The `this.models` mapping from model identifier to provider family
(AIPairRunner.js lines 28–36); unknown identifiers map to `none`
(JS `undefined`). -/
def models (model : String) : Option String :=
  if model = "gpt-4o" then some "openai"
  else if model = "gpt-4o-mini" then some "openai"
  else if model = "gpt-3.5-turbo" then some "openai"
  else if model = "claude-3-5-sonnet-20241022" then some "anthropic"
  else if model = "claude-3-5-sonnet" then some "anthropic"
  else if model = "gemini-1.5-pro" then some "gemini"
  else if model = "gemini-2" then some "gemini"
  else none

/-- The `this.apiKeys[family]` lookup (lines 22–26 and 45–46); an unknown
or absent family yields `none` (JS `undefined`). -/
def apiKeyFor (r : Runner) (family : Option String) : Option String :=
  match family with
  | some f =>
      if f = "anthropic" then r.anthropicKey
      else if f = "openai" then r.openaiKey
      else if f = "gemini" then r.geminiKey
      else none
  | none => none

/-- Lines 44–55 of AIPairRunner.js, `getApiKeyForModel(model)`: a falsy
key (absent, or the empty string) prints an error and calls
`process.exit(1)`, modelled as `Except.error 1`; otherwise the key is
returned. -/
def getApiKeyForModel (r : Runner) (model : String) : Except Nat String :=
  match apiKeyFor r (models model) with
  | none => Except.error 1
  | some k => if k = "" then Except.error 1 else Except.ok k

/-- The three AI backend client variants constructed on lines 57–68. -/
inductive Client
  | chatGPT (apiKey model : String)
  | claude (apiKey model : String)
  | gemini (apiKey model : String)
deriving DecidableEq

/-- The provider family a constructed client belongs to. -/
def Client.family : Client → String
  | Client.chatGPT _ _ => "openai"
  | Client.claude _ _ => "anthropic"
  | Client.gemini _ _ => "gemini"

/-- Lines 57–68 of AIPairRunner.js, `selectAIClient(apiKey, model)`: branch
on the mapped family; an unrecognised model logs a warning (the returned
flag) and falls back to `ChatGPTClient`. -/
def selectAIClient (apiKey model : String) : Client × Bool :=
  let family := models model
  if family = some "openai" then (Client.chatGPT apiKey model, false)
  else if family = some "anthropic" then (Client.claude apiKey model, false)
  else if family = some "gemini" then (Client.gemini apiKey model, false)
  else (Client.chatGPT apiKey model, true)

/-- Observable actions of `run()` beyond the cycle itself: clearing the
scratch directory (twice, lines 250–251), reading the project's
`build.gradle.kts` (line 255, the first project-tree file access), and the
first cycle's collaborator actions. -/
inductive RunEvent
  | clearTmp
  | readProjectFile (p : String)
  | cycleEvent (e : Event)
deriving DecidableEq

/-- The `build.gradle.kts` path read by `run()` (line 254). -/
def buildGradlePath (r : Runner) : String :=
  pathJoin r.projectRoot "build.gradle.kts"

/-- Lines 241–259 of AIPairRunner.js, `run()` up to and including the
first (non-forced) iteration: the credential check runs first and a
missing key terminates with exit code 1 before any other action; otherwise
the scratch directories are cleared, `build.gradle.kts` is read (empty
when absent), and one non-forced cycle runs. -/
def run (r : Runner) (env : Env) : Except Nat (Option Bool) × List RunEvent :=
  match getApiKeyForModel r r.model with
  | Except.error code => (Except.error code, [])
  | Except.ok _ =>
      let r2 := { r with buildGradleContent := (env.fsys (buildGradlePath r)).getD "" }
      let res := performCodeGenerationCycle r2 env false
      (Except.ok res.1,
        [RunEvent.clearTmp, RunEvent.clearTmp,
         RunEvent.readProjectFile (buildGradlePath r)] ++ res.2.map RunEvent.cycleEvent)

/-- Interactive actions of `startInteractiveLoop`, `handleHint`,
`handleModelChange` and the watch callback that can touch session state
between cycles. -/
inductive SessionOp
  | continueIteration
  | hint (s : String)
  | modelSwitch (m : String)
  | watchTrigger
deriving DecidableEq

/-- Effect of one interactive action on the runner state relevant to hint
accumulation: `handleHint` (lines 225–232) appends the feedback only when
it is non-empty (the JS `if (userFeedback)` guard); no action ever removes
hints. -/
def applyOp (r : Runner) (op : SessionOp) : Runner :=
  match op with
  | SessionOp.hint s =>
      if s = "" then r
      else { r with accumulatedHints := r.accumulatedHints ++ [s] }
  | _ => r

/-- Folds a whole interactive session over the runner state. -/
def applyOps (r : Runner) (ops : List SessionOp) : Runner :=
  ops.foldl applyOp r

/-- The non-empty hint strings submitted during a session, in order. -/
def submittedHints (ops : List SessionOp) : List String :=
  ops.filterMap (fun op =>
    match op with
    | SessionOp.hint s => if s = "" then none else some s
    | _ => none)

/-- A concrete runner configuration used to witness the theorems below. -/
def sampleRunner : Runner :=
  { model := "gpt-4o", projectRoot := "/proj", testDir := "/proj/src/test/java",
    extension := ".java", anthropicKey := none, openaiKey := some "sk-test",
    geminiKey := none, promptTemplate := "T", systemPrompt := "S",
    buildGradleContent := "", accumulatedHints := [] }

/-- The sample runner with no credential configured for its (openai)
model family. -/
def noKeyRunner : Runner :=
  { sampleRunner with openaiKey := none }

/-- A concrete collaborator oracle with a failing pre-check and no
project files. -/
def sampleEnv : Env :=
  { testsPass1 := false, testOutputFile := "out", failedTests := [],
    codeFiles := [], fsys := fun _ => none, generated := "gen",
    testsPass2 := true }

/-- The sample oracle with a passing pre-check test run. -/
def sampleEnvPass : Env :=
  { sampleEnv with testsPass1 := true }


/-! Helper lemmas about the string model. -/

theorem strData (a b : String) : (a ++ b).data = a.data ++ b.data := rfl

theorem strExt (a b : String) (h : a.data = b.data) : a = b := by
  cases a; cases b; exact congrArg String.mk h

theorem strAssoc (a b c : String) : a ++ b ++ c = a ++ (b ++ c) := by
  apply strExt
  simp [strData, List.append_assoc]

theorem toNat_ofNat_valid (n : Nat) (h : n.isValidChar) : (Char.ofNat n).toNat = n := by
  simp [Char.ofNat, h, Char.ofNatAux, Char.toNat, UInt32.toNat, BitVec.toNat_ofNatLt]

theorem jsCharToLower_of_lower (c : Char) (h1 : 97 ≤ c.toNat) : jsCharToLower c = c := by
  unfold jsCharToLower
  rw [if_neg (by omega)]

theorem jsCharToLower_ne_of_upper (c : Char) (h1 : 65 ≤ c.toNat) (h2 : c.toNat ≤ 90) :
    jsCharToLower c ≠ c := by
  unfold jsCharToLower
  rw [if_pos ⟨h1, h2⟩]
  intro h
  have h3 := congrArg Char.toNat h
  rw [toNat_ofNat_valid _ (Or.inl (by omega))] at h3
  omega

theorem consHead_ne_nil (c : Char) (gs : List (List Char)) : consHead c gs ≠ [] := by
  cases gs <;> simp [consHead]

theorem splitOnChar_ne_nil (sep : Char) (l : List Char) : splitOnChar sep l ≠ [] := by
  cases l with
  | nil => simp [splitOnChar]
  | cons c rest =>
      simp only [splitOnChar]
      split
      · simp
      · exact consHead_ne_nil _ _

theorem splitOnChar_append (sep : Char) (a b : List Char) :
    splitOnChar sep (a ++ sep :: b) = splitOnChar sep a ++ splitOnChar sep b := by
  induction a with
  | nil => simp [splitOnChar]
  | cons c a ih =>
      simp only [List.cons_append, List.append_eq, splitOnChar]
      split
      · simp [ih]
      · rw [ih]
        rcases h : splitOnChar sep a with _ | ⟨g, gs⟩
        · exact absurd h (splitOnChar_ne_nil sep a)
        · simp [consHead]

theorem splitOnChar_eq_single (sep : Char) (b : List Char) (h : sep ∉ b) :
    splitOnChar sep b = [b] := by
  induction b with
  | nil => rfl
  | cons c rest ih =>
      have hc : c ≠ sep := fun hc => h (hc ▸ List.mem_cons_self _ _)
      simp only [splitOnChar, if_neg hc, ih (fun hm => h (List.mem_cons_of_mem _ hm))]
      rfl

theorem intercalate_splitOnChar (sep : Char) (l : List Char) :
    intercalateChar sep (splitOnChar sep l) = l := by
  induction l with
  | nil => rfl
  | cons c rest ih =>
      simp only [splitOnChar]
      split
      · rename_i hc
        rcases h : splitOnChar sep rest with _ | ⟨g, gs⟩
        · exact absurd h (splitOnChar_ne_nil sep rest)
        · rw [h] at ih
          simp only [intercalateChar, List.nil_append]
          rw [ih, hc]
      · rcases h : splitOnChar sep rest with _ | ⟨g, gs⟩
        · exact absurd h (splitOnChar_ne_nil sep rest)
        · rw [h] at ih
          cases gs with
          | nil => simp only [consHead, intercalateChar] at ih ⊢; rw [ih]
          | cons g2 gs2 =>
              simp only [consHead, intercalateChar, List.cons_append] at ih ⊢
              rw [← ih]

theorem takeUntilClose_append (xs ys : List Char) (h : ')' ∉ xs) :
    takeUntilClose (xs ++ ')' :: ys) = xs := by
  induction xs with
  | nil => simp [takeUntilClose]
  | cons c rest ih =>
      have hc : c ≠ ')' := fun hc => h (hc ▸ List.mem_cons_self _ _)
      simp only [List.cons_append, List.append_eq, takeUntilClose, if_neg hc]
      rw [ih (fun hm => h (List.mem_cons_of_mem _ hm))]

theorem firstParenGroup_append (xs ys : List Char) (h : '(' ∉ xs) :
    firstParenGroup (xs ++ ys) = firstParenGroup ys := by
  induction xs with
  | nil => rfl
  | cons c rest ih =>
      have hc : c ≠ '(' := fun hc => h (hc ▸ List.mem_cons_self _ _)
      simp only [List.cons_append, firstParenGroup]
      rw [if_neg (fun hand => hc hand.1)]
      exact ih (fun hm => h (List.mem_cons_of_mem _ hm))

theorem firstParenGroup_found (c ys : List Char) (hnp : ')' ∉ c) (hne : c ≠ []) :
    firstParenGroup ('(' :: (c ++ ')' :: ys)) = some c := by
  have hmem : ')' ∈ c ++ ')' :: ys := List.mem_append_right _ (List.mem_cons_self _ _)
  simp only [firstParenGroup]
  rw [if_pos ⟨trivial, hmem⟩, takeUntilClose_append c ys hnp, if_neg hne]

theorem stripMethod_eq_self (cn : List Char) (ch : Char) (l : List Char)
    (hlast : (splitOnChar '.' cn).getLast? = some (ch :: l))
    (h1 : 65 ≤ ch.toNat) (h2 : ch.toNat ≤ 90) :
    stripMethod cn = cn := by
  simp only [stripMethod, hlast]
  exact if_neg (jsCharToLower_ne_of_upper ch h1 h2)

/-- C4: for every failure string of the form `m(pkg.Class)` — `m` without
an opening parenthesis, the class text `c` free of closing parentheses and
with an uppercase-ASCII-initial final dot segment, as the `Class` naming
denotes — the extractor derives exactly `c`, whatever the casing of `m`
and whatever dots `m` contains. -/
theorem extractClassName_parenFormat (m c : String)
    (hm : '(' ∉ m.data) (hc : ')' ∉ c.data)
    (ch : Char) (l : List Char)
    (hlast : (splitOnChar '.' c.data).getLast? = some (ch :: l))
    (h1 : 65 ≤ ch.toNat) (h2 : ch.toNat ≤ 90) :
    extractClassName (m ++ "(" ++ c ++ ")") = c := by
  have hop : ("(" : String).data = ['('] := rfl
  have hcl : (")" : String).data = [')'] := rfl
  have hdata : (m ++ "(" ++ c ++ ")").data = m.data ++ '(' :: (c.data ++ ')' :: []) := by
    simp [strData, hop, hcl, List.append_assoc]
  have hne : c.data ≠ [] := by
    intro h0
    rw [h0] at hlast
    simp [splitOnChar] at hlast
  have hmem : '(' ∈ m.data ++ '(' :: (c.data ++ ')' :: []) := by simp
  have hfpg : firstParenGroup (m.data ++ '(' :: (c.data ++ ')' :: [])) = some c.data := by
    rw [firstParenGroup_append _ _ hm, firstParenGroup_found _ _ hc hne]
  unfold extractClassName
  rw [hdata]
  simp only [extractClassNameL, if_pos hmem, hfpg]
  rw [stripMethod_eq_self c.data ch l hlast h1 h2]

/-- C4 witness at the concrete failure string `TEST.my(org.example.OpenRTBTest)`. -/
theorem extractClassName_parenFormat_witness :
    extractClassName ("TEST.my" ++ "(" ++ "org.example.OpenRTBTest" ++ ")") =
      "org.example.OpenRTBTest" :=
  extractClassName_parenFormat "TEST.my" "org.example.OpenRTBTest" (by decide) (by decide)
    'O' ("penRTBTest".data) (by decide) (by decide) (by decide)

/-- C5: a parenthesis-free dotted failure string whose final dot segment
begins with a lowercase ASCII letter loses exactly that segment (and its
dot); one whose final segment begins with an uppercase ASCII letter is
returned unchanged. -/
theorem extractClassName_dotted (pre lastSeg : List Char) (ch : Char) (l : List Char)
    (hseg : lastSeg = ch :: l) (hnodot : '.' ∉ lastSeg)
    (hnp : '(' ∉ pre ++ '.' :: lastSeg) :
    (97 ≤ ch.toNat → ch.toNat ≤ 122 → extractClassNameL (pre ++ '.' :: lastSeg) = pre) ∧
    (65 ≤ ch.toNat → ch.toNat ≤ 90 →
      extractClassNameL (pre ++ '.' :: lastSeg) = pre ++ '.' :: lastSeg) := by
  have hsplit : splitOnChar '.' (pre ++ '.' :: lastSeg) =
      splitOnChar '.' pre ++ [lastSeg] := by
    rw [splitOnChar_append, splitOnChar_eq_single _ _ hnodot]
  have hlast : (splitOnChar '.' (pre ++ '.' :: lastSeg)).getLast? = some (ch :: l) := by
    rw [hsplit, List.getLast?_concat, hseg]
  have hbody : extractClassNameL (pre ++ '.' :: lastSeg) =
      stripMethod (pre ++ '.' :: lastSeg) := by
    simp only [extractClassNameL, if_neg hnp]
  constructor
  · intro h97 _h122
    rw [hbody]
    simp only [stripMethod, hlast]
    rw [if_pos (jsCharToLower_of_lower ch h97), hsplit, List.dropLast_concat,
        intercalate_splitOnChar]
  · intro h65 h90
    rw [hbody]
    simp only [stripMethod, hlast]
    exact if_neg (jsCharToLower_ne_of_upper ch h65 h90)

/-- C5 witness: `a.b.Thing.testFoo` loses its lowercase-initial final
segment, `a.b.Thing` (uppercase-initial final segment) is unchanged. -/
theorem extractClassName_dotted_witness :
    extractClassNameL ("a.b.Thing".data ++ '.' :: "testFoo".data) = "a.b.Thing".data ∧
    extractClassNameL ("a.b".data ++ '.' :: "Thing".data) =
      "a.b".data ++ '.' :: "Thing".data :=
  ⟨(extractClassName_dotted "a.b.Thing".data "testFoo".data 't' "estFoo".data rfl
      (by decide) (by decide)).1 (by decide) (by decide),
   (extractClassName_dotted "a.b".data "Thing".data 'T' "hing".data rfl
      (by decide) (by decide)).2 (by decide) (by decide)⟩

/-- C6: the extractor maps each failure to its own entry — same length,
same order, the i-th output derived from the i-th input, no deduplication
(two failures of one class keep both identical paths), the empty input
yields the empty output, and the scenario
`["testFoo(org.ex.ThingTest)", "org.ex.OtherTest.testBar"]` derives the
classes `["org.ex.ThingTest", "org.ex.OtherTest"]` in order. -/
theorem extractTestFiles_ordered (r : Runner) (fsys : String → Option String)
    (tests : List String) (i : Nat) :
    (extractTestFiles r fsys tests).length = tests.length ∧
    (extractTestFiles r fsys tests).get? i = (tests.get? i).map (extractTestFile r fsys) ∧
    extractTestFiles r fsys [] = [] ∧
    List.map extractClassName ["testFoo(org.ex.ThingTest)", "org.ex.OtherTest.testBar"] =
      ["org.ex.ThingTest", "org.ex.OtherTest"] ∧
    (extractTestFiles r fsys ["a(org.ex.T)", "b(org.ex.T)"]).map SrcFile.path =
      [testFilePath r "org.ex.T", testFilePath r "org.ex.T"] := by
  have hcls1 : extractClassName "a(org.ex.T)" = "org.ex.T" := by decide
  have hcls2 : extractClassName "b(org.ex.T)" = "org.ex.T" := by decide
  refine ⟨List.length_map _ _, List.get?_map _ _ _, rfl, by decide, ?_⟩
  simp [extractTestFiles, extractTestFile, hcls1, hcls2]

/-- C9: when the derived test-file path is absent from the file system,
the extractor still yields an entry carrying that path with empty content
instead of failing. -/
theorem extractTestFile_missingFile (r : Runner) (fsys : String → Option String) (t : String)
    (h : fsys (testFilePath r (extractClassName t)) = none) :
    extractTestFile r fsys t =
      { path := testFilePath r (extractClassName t), content := "" } := by
  simp [extractTestFile, h]

/-- C9 witness on an empty file system. -/
theorem extractTestFile_missingFile_witness :
    extractTestFile sampleRunner (fun _ => none) "x(a.B)" =
      { path := testFilePath sampleRunner (extractClassName "x(a.B)"), content := "" } :=
  extractTestFile_missingFile sampleRunner (fun _ => none) "x(a.B)" rfl

/-- C10: the constructed test-source path never depends on the runner's
`testDir` field (which no operation reads after construction — the whole
cycle and `run` are invariant under changing it), is always rooted at
`projectRoot/src/test/java/`, and always carries the fixed `.java`
extension. -/
theorem testFilePath_fixedRoot (r : Runner) (td className : String) (env : Env) (force : Bool) :
    testFilePath { r with testDir := td } className = testFilePath r className ∧
    testFilePath r className =
      r.projectRoot ++ "/src/test/java/" ++ (slashPath className ++ ".java") ∧
    (r.projectRoot ++ "/src/test/java/").data <+: (testFilePath r className).data ∧
    (".java" : String).data <:+ (testFilePath r className).data ∧
    performCodeGenerationCycle { r with testDir := td } env force =
      performCodeGenerationCycle r env force ∧
    run { r with testDir := td } env = run r env := by
  have E : testFilePath r className =
      r.projectRoot ++ "/src/test/java/" ++ (slashPath className ++ ".java") := by
    apply strExt
    simp only [testFilePath, pathJoin, strData, List.append_assoc]
    congr 1
  refine ⟨rfl, E, ?_, ?_, rfl, rfl⟩
  · rw [E]
    exact ⟨(slashPath className ++ ".java").data, rfl⟩
  · rw [E, ← strAssoc]
    exact ⟨(r.projectRoot ++ "/src/test/java/" ++ slashPath className).data, rfl⟩

/-- Every prompt carried by a generation action of a cycle was rendered by
`renderPrompt` from the runner's current state. -/
theorem generate_mem_cycle (r : Runner) (env : Env) (force : Bool) (p : String)
    (hp : Event.generate p ∈ (performCodeGenerationCycle r env force).2) :
    ∃ a b, p = renderPrompt r a b := by
  cases force with
  | true =>
      simp [performCodeGenerationCycle] at hp
      exact ⟨_, _, hp⟩
  | false =>
      by_cases h1 : env.testsPass1
      · simp [performCodeGenerationCycle, h1] at hp
      · simp [performCodeGenerationCycle, h1] at hp
        exact ⟨_, _, hp⟩

/-- When hints have accumulated, every rendered prompt ends with the single
trailing hint line built from all of them joined by `; `. -/
theorem renderPrompt_hint_suffix (r : Runner) (a b : String)
    (h : r.accumulatedHints ≠ []) :
    ("\n\nHints for improvement: " ++ joinSep "; " r.accumulatedHints).data <:+
      (renderPrompt r a b).data := by
  simp only [renderPrompt]
  rw [if_neg h]
  refine ⟨(jsReplaceFirst (jsReplaceFirst (jsReplaceFirst r.promptTemplate
    "{testOutput}" a) "{filesContent}" b) "{buildGradleContent}"
      r.buildGradleContent).data, ?_⟩
  simp [strData, List.append_assoc]

/-- C2 (amended): non-empty hint submissions are appended in order and no
interactive action ever removes a hint (the initial hints stay a prefix);
empty submissions are discarded by `handleHint`; while the accumulated
hints are non-empty, every prompt a cycle sends to the AI backend ends
with the single trailing line containing all accumulated hints, in
submission order, joined by `; `. -/
theorem hints_accumulate (r : Runner) (ops : List SessionOp) (env : Env) (force : Bool) :
    (applyOps r ops).accumulatedHints = r.accumulatedHints ++ submittedHints ops ∧
    r.accumulatedHints <+: (applyOps r ops).accumulatedHints ∧
    ((applyOps r ops).accumulatedHints ≠ [] →
      ∀ p, Event.generate p ∈ (performCodeGenerationCycle (applyOps r ops) env force).2 →
        ("\n\nHints for improvement: " ++
          joinSep "; " (applyOps r ops).accumulatedHints).data <:+ p.data) := by
  have h1 : ∀ (ops : List SessionOp) (r : Runner),
      (applyOps r ops).accumulatedHints = r.accumulatedHints ++ submittedHints ops := by
    intro ops
    induction ops with
    | nil => intro r; simp [applyOps, submittedHints]
    | cons op rest ih =>
        intro r
        have hfold : applyOps r (op :: rest) = applyOps (applyOp r op) rest := rfl
        cases op with
        | hint s =>
            by_cases hs : s = ""
            · subst hs
              rw [hfold]
              have ha : applyOp r (SessionOp.hint "") = r := by simp [applyOp]
              rw [ha, ih r]
              simp [submittedHints, List.filterMap_cons]
            · rw [hfold, ih]
              have ha : applyOp r (SessionOp.hint s) =
                  { r with accumulatedHints := r.accumulatedHints ++ [s] } := by
                simp [applyOp, hs]
              rw [ha]
              simp [submittedHints, List.filterMap_cons, hs, List.append_assoc]
        | continueIteration =>
            rw [hfold]
            show (applyOps r rest).accumulatedHints = _
            rw [ih r]
            simp [submittedHints, List.filterMap_cons]
        | modelSwitch m =>
            rw [hfold]
            show (applyOps r rest).accumulatedHints = _
            rw [ih r]
            simp [submittedHints, List.filterMap_cons]
        | watchTrigger =>
            rw [hfold]
            show (applyOps r rest).accumulatedHints = _
            rw [ih r]
            simp [submittedHints, List.filterMap_cons]
  refine ⟨h1 ops r, ⟨submittedHints ops, (h1 ops r).symm⟩, ?_⟩
  intro hne p hp
  obtain ⟨a, b, hpe⟩ := generate_mem_cycle _ env force p hp
  rw [hpe]
  exact renderPrompt_hint_suffix _ a b hne

/-- C2 witness: after submitting the hint `fix imports`, the forced
cycle's prompt ends with the rendered hint line. -/
theorem hints_accumulate_witness :
    ("\n\nHints for improvement: " ++ joinSep "; " ["fix imports"]).data <:+
      ("T\n\nHints for improvement: fix imports" : String).data := by
  have h := (hints_accumulate sampleRunner [SessionOp.hint "fix imports"] sampleEnv true).2.2
  have hm : Event.generate "T\n\nHints for improvement: fix imports" ∈
      (performCodeGenerationCycle (applyOps sampleRunner [SessionOp.hint "fix imports"])
        sampleEnv true).2 := by decide
  exact h (by decide) _ hm

/-- C2 counterexample: submitting the two hints `a` and `""` (the user
answers the hint prompt with an empty line) is a sequence of two hint
submissions, yet the next cycle's prompt does not contain the two
submitted strings joined by `; ` — the empty submission was discarded, so
the rendered hint line is `...: a` and the text `a; ` occurs nowhere. -/
theorem hints_accumulate_counterexample :
    Event.generate "T\n\nHints for improvement: a" ∈
      (performCodeGenerationCycle
        (applyOps sampleRunner [SessionOp.hint "a", SessionOp.hint ""]) sampleEnv true).2 ∧
    ¬ (joinSep "; " ["a", ""]).data <:+: ("T\n\nHints for improvement: a" : String).data := by
  constructor
  · decide
  · decide

/-- C1 (amended): when the non-forced pre-check test run passes, the cycle
performs only that test run — no generation call, no code application —
and returns early with no value (`none`, the JS `return;` of line 101,
which the caller `handleSingleIteration` then treats as falsy), rather
than a `true` result. -/
theorem cycle_passedEarly (r : Runner) (env : Env) (h : env.testsPass1 = true) :
    performCodeGenerationCycle r env false = (none, [Event.testRun]) ∧
    generatedPrompts (performCodeGenerationCycle r env false).2 = [] ∧
    appliedCodes (performCodeGenerationCycle r env false).2 = [] ∧
    (performCodeGenerationCycle r env false).1 ≠ some true := by
  have hc : performCodeGenerationCycle r env false = (none, [Event.testRun]) := by
    simp [performCodeGenerationCycle, h]
  refine ⟨hc, ?_, ?_, ?_⟩ <;> rw [hc] <;> simp [generatedPrompts, appliedCodes]

/-- C1 witness at the concrete passing-pre-check oracle. -/
theorem cycle_passedEarly_witness :
    performCodeGenerationCycle sampleRunner sampleEnvPass false = (none, [Event.testRun]) ∧
    generatedPrompts (performCodeGenerationCycle sampleRunner sampleEnvPass false).2 = [] ∧
    appliedCodes (performCodeGenerationCycle sampleRunner sampleEnvPass false).2 = [] ∧
    (performCodeGenerationCycle sampleRunner sampleEnvPass false).1 ≠ some true :=
  cycle_passedEarly sampleRunner sampleEnvPass rfl

/-- C1 counterexample: with a passing pre-check, the non-forced cycle's
return value is not `true` — the function returns `undefined` (modelled
`none`), so the claim's `returns a true result` fails. -/
theorem cycle_passedEarly_counterexample :
    sampleEnvPass.testsPass1 = true ∧
    (performCodeGenerationCycle sampleRunner sampleEnvPass false).1 ≠ some true := by
  refine ⟨rfl, ?_⟩
  decide

/-- C3: a forced cycle skips the pre-check entirely — its trace starts
with file collection, carries exactly one generation call followed by one
code application and one (re-)test run, returns that re-test's outcome,
and is unaffected by whether the project's tests would have passed. -/
theorem cycle_forced_generatesOnce (r : Runner) (env : Env) :
    (generatedPrompts (performCodeGenerationCycle r env true).2).length = 1 ∧
    (∃ p, (performCodeGenerationCycle r env true).2 =
      [Event.collectFiles, Event.generate p, Event.applyCode env.generated,
       Event.testRun]) ∧
    (performCodeGenerationCycle r env true).1 = some env.testsPass2 ∧
    performCodeGenerationCycle r { env with testsPass1 := true } true =
      performCodeGenerationCycle r env true := by
  refine ⟨?_, ⟨_, rfl⟩, rfl, rfl⟩
  simp [performCodeGenerationCycle, generatedPrompts]

/-- C7: a model whose provider family has no configured credential makes
`run()` terminate with exit code 1 before anything else happens: the trace
is empty — no scratch-directory clearing, no project-tree file read, no
test run, no collection, no generation. -/
theorem run_missingCredential (r : Runner) (env : Env)
    (h : apiKeyFor r (models r.model) = none ∨ apiKeyFor r (models r.model) = some "") :
    run r env = (Except.error 1, []) := by
  have hk : getApiKeyForModel r r.model = Except.error 1 := by
    rcases h with h | h <;> simp [getApiKeyForModel, h]
  simp [run, hk]

/-- C7 witness: the sample runner without an openai key exits immediately. -/
theorem run_missingCredential_witness :
    run noKeyRunner sampleEnv = (Except.error 1, []) :=
  run_missingCredential noKeyRunner sampleEnv (Or.inl rfl)

/-- C8: an unmapped model identifier makes `selectAIClient` warn and fall
back to the ChatGPT client instead of failing; a mapped identifier
deterministically yields a client of the mapped family with no warning;
and the chosen client's family never depends on the key argument, so
selecting the same identifier twice yields clients of the same family. -/
theorem selectAIClient_resolution (apiKey apiKey2 model : String) :
    (models model = none → selectAIClient apiKey model = (Client.chatGPT apiKey model, true)) ∧
    (∀ fam, models model = some fam →
      (selectAIClient apiKey model).1.family = fam ∧
      (selectAIClient apiKey model).2 = false) ∧
    (selectAIClient apiKey model).1.family = (selectAIClient apiKey2 model).1.family := by
  refine ⟨?_, ?_, ?_⟩
  · intro h
    simp [selectAIClient, h]
  · intro fam h
    unfold models at h
    split_ifs at h with h1 h2 h3 h4 h5 h6 h7
    · subst h1; injection h with h; subst h; exact ⟨rfl, rfl⟩
    · subst h2; injection h with h; subst h; exact ⟨rfl, rfl⟩
    · subst h3; injection h with h; subst h; exact ⟨rfl, rfl⟩
    · subst h4; injection h with h; subst h; exact ⟨rfl, rfl⟩
    · subst h5; injection h with h; subst h; exact ⟨rfl, rfl⟩
    · subst h6; injection h with h; subst h; exact ⟨rfl, rfl⟩
    · subst h7; injection h with h; subst h; exact ⟨rfl, rfl⟩
  · simp only [selectAIClient]
    split_ifs <;> rfl

/-- C8 witness: a mapped and an unmapped identifier, resolved concretely. -/
theorem selectAIClient_resolution_witness :
    (selectAIClient "k" "claude-3-5-sonnet").1.family = "anthropic" ∧
    selectAIClient "k" "not-a-model" = (Client.chatGPT "k" "not-a-model", true) :=
  ⟨((selectAIClient_resolution "k" "j" "claude-3-5-sonnet").2.1 "anthropic" (by decide)).1,
   (selectAIClient_resolution "k" "j" "not-a-model").1 (by decide)⟩
